import Mathlib

/-!
Verification of the booking-fields reconciliation logic
(`getBookingFieldsWithSystemFields` / `ensureBookingInputsHaveSystemFields`)
against its natural-language specification.

The TypeScript source is shallowly embedded: JS objects become structures
whose optional properties are `Option`s (a `none` models an absent key),
JS object spread becomes an explicit per-property merge, array mutation
becomes functional list transformation, and the external zod schemas
(which are not part of the sources) are modelled from the spec.
-/

namespace CalCom

/-- The booking-field `type` strings of the embedded schema
(`text`, `textarea`, `number`, `boolean`, `radio`, `phone`, `email`,
`name`, `multiemail`, `radioInput`, `address`). -/
inductive FieldType
  | name | text | textarea | number | boolean | radio | phone
  | email | multiemail | radioInput | address
deriving DecidableEq, Repr

/-- The `editable` tiers of a booking field. -/
inductive Editable
  | system | systemButOptional | user
deriving DecidableEq, Repr

/-- One `{label, value}` option of an enumerated-choice booking field. -/
structure FieldOption where
  label : String
  value : String
deriving DecidableEq, Repr

/-- One provenance record of a booking field
(shape produced by `getSmsReminderNumberSource` and the `sources` entries
of the system fields). -/
structure FieldSource where
  id : String
  type : String
  label : String
  fieldRequired : Option Bool := none
  editUrl : Option String := none
deriving DecidableEq, Repr

/-- One sub-field of a variant in the `name` field's `variantsConfig`
(lines 210-236 of the source). -/
structure VariantField where
  name : String
  type : FieldType
  label : String
  required : Bool
deriving DecidableEq, Repr

/-- The `variantsConfig` property of the `name` system field: a default
variant plus the field lists of the `firstAndLastName` and `fullName`
variants. -/
structure VariantsConfig where
  defaultVariant : String
  firstAndLastName : List VariantField
  fullName : List VariantField
deriving DecidableEq, Repr

/-- One entry of a `fieldsMap` in the UI `FieldTypeConfigMap`
(lines 28-47 of the source). -/
structure UIFieldMapEntry where
  defaultLabel : String
  defaultPlaceholder : Option String := none
  canChangeRequirability : Bool
deriving DecidableEq, Repr

/-- One variant of the UI `variantsConfig` in `FieldTypeConfigMap`. -/
structure UIVariant where
  label : String
  fieldsMap : List (String × UIFieldMapEntry)
deriving DecidableEq, Repr

/-- The UI `variantsConfig` carried by a `FieldTypeConfigMap` entry. -/
structure UIVariantsConfig where
  toggleLabel : String
  firstAndLastName : UIVariant
  fullName : UIVariant
deriving DecidableEq, Repr

/-- A `FieldTypeConfigMap` entry (UI behaviour hints for a field type). -/
structure FieldTypeConfigEntry where
  variantsConfig : UIVariantsConfig
deriving DecidableEq, Repr

/-- One nested input of the `location` field's `optionsInputs`
(lines 269-280 of the source). -/
structure OptionInput where
  type : FieldType
  required : Bool
  placeholder : String
deriving DecidableEq, Repr

/-- The `optionsInputs` property of the `location` system field. -/
structure OptionsInputs where
  attendeeInPerson : OptionInput
  phone : OptionInput
deriving DecidableEq, Repr

/-- One `views` entry of a booking field. -/
structure FieldView where
  id : String
  label : String
deriving DecidableEq, Repr

/-- A booking field.  Properties that a JS field object may lack are
`Option`s; `none` models an absent key. -/
structure Field where
  name : String
  type : FieldType
  label : Option String := none
  defaultLabel : Option String := none
  placeholder : Option String := none
  defaultPlaceholder : Option String := none
  required : Option Bool := none
  editable : Option Editable := none
  hidden : Option Bool := none
  options : Option (List FieldOption) := none
  getOptionsAt : Option String := none
  optionsInputs : Option OptionsInputs := none
  hideWhenJustOneOption : Option Bool := none
  variantsConfig : Option VariantsConfig := none
  views : Option (List FieldView) := none
  sources : Option (List FieldSource) := none
  fieldTypeConfig : Option FieldTypeConfigEntry := none
deriving DecidableEq, Repr

instance : Inhabited Field := ⟨{ name := "", type := FieldType.text }⟩

/-- The `EventTypeCustomInputType` enum (lines 83-90 of the source). -/
inductive EventTypeCustomInputType
  | TEXT | TEXTLONG | NUMBER | BOOL | RADIO' | PHONE
deriving DecidableEq, Repr

/-- The string name of an `EventTypeCustomInputType` value, as used by the
JS template literals over `input.type`. -/
def EventTypeCustomInputType.str : EventTypeCustomInputType → String
  | .TEXT => "TEXT"
  | .TEXTLONG => "TEXTLONG"
  | .NUMBER => "NUMBER"
  | .BOOL => "BOOL"
  | .RADIO' => "RADIO"
  | .PHONE => "PHONE"

/-- One option of a legacy custom input: per the spec these are
"label-only choice entries". -/
structure CustomInputOption where
  label : String
deriving DecidableEq, Repr

/-- A legacy `CustomInput` (spec §3): `label`, `type`, `required`,
`placeholder`, `options`. -/
structure CustomInput where
  label : String
  type : EventTypeCustomInputType
  required : Bool
  placeholder : Option String := none
  options : Option (List CustomInputOption) := none
deriving DecidableEq, Repr

/-- A workflow step; only `action` and `numberRequired` are read by the
reconciler (`numberRequired` may be null, hence `Option`). -/
structure WorkflowStep where
  action : String
  numberRequired : Option Bool := none
deriving DecidableEq, Repr

/-- A workflow: `id` and `steps`, the shape selected by the Prisma payload
in the source. -/
structure Workflow where
  id : Int
  steps : List WorkflowStep
deriving DecidableEq, Repr

/-- One element of the `workflows` argument (`{ workflow: { id, steps } }`). -/
structure WorkflowOnEventType where
  workflow : Workflow
deriving DecidableEq, Repr

/-- `SMS_REMINDER_NUMBER_FIELD` (line 15 of the source). -/
def SMS_REMINDER_NUMBER_FIELD : String := "smsReminderNumber"

/-- The 26 uppercase/lowercase ASCII letter pairs, used by the modelled
case conversions. -/
def upperLowerPairs : List (Char × Char) :=
  [('A', 'a'), ('B', 'b'), ('C', 'c'), ('D', 'd'), ('E', 'e'), ('F', 'f'),
   ('G', 'g'), ('H', 'h'), ('I', 'i'), ('J', 'j'), ('K', 'k'), ('L', 'l'),
   ('M', 'm'), ('N', 'n'), ('O', 'o'), ('P', 'p'), ('Q', 'q'), ('R', 'r'),
   ('S', 's'), ('T', 't'), ('U', 'u'), ('V', 'v'), ('W', 'w'), ('X', 'x'),
   ('Y', 'y'), ('Z', 'z')]

/-- Lowercase an ASCII character (identity on everything else). -/
def lowerChar (c : Char) : Char :=
  match upperLowerPairs.find? (fun p => p.1 == c) with
  | some p => p.2
  | none => c

/-- Uppercase an ASCII character (identity on everything else). -/
def upperChar (c : Char) : Char :=
  match upperLowerPairs.find? (fun p => p.2 == c) with
  | some p => p.1
  | none => c

/-- `upperCaseToCamelCase` (lines 56-58 of the source):
`PHONE -> Phone`, i.e. uppercase the first character and lowercase the
rest. -/
def upperCaseToCamelCase (upperCaseString : String) : String :=
  match upperCaseString.toList with
  | [] => ""
  | c :: rest => String.mk (upperChar c :: rest.map lowerChar)

/-- Modelled from the spec: `slugify` (`@calcom/lib/slugify`) is not among
the sources.  Per the spec it converts a free-text label to a URL-safe
field name; modelled as lowercasing every ASCII letter and replacing every
character that is not an ASCII letter, digit or hyphen by a hyphen. -/
def slugify (str : String) : String :=
  String.mk (str.toList.map (fun c =>
    if c.isAlpha then lowerChar c
    else if c.isDigit || c == '-' then c
    else '-'))

/-- `getSmsReminderNumberField` (lines 60-67 of the source). -/
def getSmsReminderNumberField : Field :=
  { name := SMS_REMINDER_NUMBER_FIELD
    type := FieldType.phone
    defaultLabel := some "number_sms_notifications"
    defaultPlaceholder := some "enter_phone_number"
    editable := some Editable.system }

/-- `getSmsReminderNumberSource` (lines 69-81 of the source). -/
def getSmsReminderNumberSource (workflowId : Int)
    (isSmsReminderNumberRequired : Bool) : FieldSource :=
  { id := toString workflowId
    type := "workflow"
    label := "Workflow"
    fieldRequired := some isSmsReminderNumberRequired
    editUrl := some ("/workflows/" ++ toString workflowId) }

/-- `CustomInputTypeToFieldType` (lines 172-179 of the source). -/
def CustomInputTypeToFieldType : EventTypeCustomInputType → FieldType
  | .TEXT => FieldType.text
  | .TEXTLONG => FieldType.textarea
  | .NUMBER => FieldType.number
  | .BOOL => FieldType.boolean
  | .RADIO' => FieldType.radio
  | .PHONE => FieldType.phone

/-- The `FieldTypeConfigMap` (lines 17-52 of the source): UI behaviour
hints keyed by field type; only `name` has an entry. -/
def FieldTypeConfigMap (t : FieldType) : Option FieldTypeConfigEntry :=
  match t with
  | FieldType.name => some
      { variantsConfig :=
          { toggleLabel := "Split \x22Full name\x22 into \x22First name\x22 and \x22Last name\x22"
            firstAndLastName :=
              { label := "First Name, Last Name"
                fieldsMap :=
                  [("firstName",
                    { defaultLabel := "first_name"
                      canChangeRequirability := false }),
                   ("lastName",
                    { defaultLabel := "last_name"
                      canChangeRequirability := true })] }
            fullName :=
              { label := "your_name"
                fieldsMap :=
                  [("fullName",
                    { defaultLabel := "your_name"
                      defaultPlaceholder := some "example_name"
                      canChangeRequirability := false })] } } }
  | _ => none

/-- The default `sources` entry shared by every system field. -/
def defaultSource : FieldSource :=
  { id := "default", type := "default", label := "Default" }

/-- The `name` system field (lines 198-246 of the source). -/
def nameSystemField : Field :=
  { type := FieldType.name
    name := "name"
    editable := some Editable.system
    defaultLabel := some "your_name"
    required := some true
    variantsConfig := some
      { defaultVariant := "fullName"
        firstAndLastName :=
          [{ name := "firstName", type := FieldType.text
             label := "First Name", required := true },
           { name := "lastName", type := FieldType.text
             label := "Last Name", required := false }]
        fullName :=
          [{ name := "fullName", type := FieldType.text
             label := "Your Name", required := true }] }
    sources := some [defaultSource] }

/-- The `email` system field (lines 247-260 of the source). -/
def emailSystemField : Field :=
  { defaultLabel := some "email_address"
    type := FieldType.email
    name := "email"
    required := some true
    editable := some Editable.system
    sources := some [defaultSource] }

/-- The `location` system field (lines 261-288 of the source). -/
def locationSystemField : Field :=
  { defaultLabel := some "location"
    type := FieldType.radioInput
    name := "location"
    editable := some Editable.system
    hideWhenJustOneOption := some true
    required := some false
    getOptionsAt := some "locations"
    optionsInputs := some
      { attendeeInPerson :=
          { type := FieldType.address, required := true, placeholder := "" }
        phone :=
          { type := FieldType.phone, required := true, placeholder := "" } }
    sources := some [defaultSource] }

/-- `systemBeforeFields` (lines 197-289 of the source): the `name`,
`email` and `location` system fields, in that order. -/
def systemBeforeFields : List Field :=
  [nameSystemField, emailSystemField, locationSystemField]

/-- The `notes` system field (lines 293-307 of the source); `required`
is the `additionalNotesRequired` flag. -/
def notesSystemField (additionalNotesRequired : Bool) : Field :=
  { defaultLabel := some "additional_notes"
    type := FieldType.textarea
    name := "notes"
    editable := some Editable.systemButOptional
    required := some additionalNotesRequired
    defaultPlaceholder := some "share_additional_notes"
    sources := some [defaultSource] }

/-- The `guests` system field (lines 308-322 of the source); `hidden` is
the `disableGuests` flag. -/
def guestsSystemField (disableGuests : Bool) : Field :=
  { defaultLabel := some "additional_guests"
    type := FieldType.multiemail
    editable := some Editable.systemButOptional
    name := "guests"
    required := some false
    hidden := some disableGuests
    sources := some [defaultSource] }

/-- The `rescheduleReason` system field (lines 323-343 of the source). -/
def rescheduleReasonSystemField : Field :=
  { defaultLabel := some "reschedule_reason"
    type := FieldType.textarea
    editable := some Editable.systemButOptional
    name := "rescheduleReason"
    defaultPlaceholder := some "reschedule_placeholder"
    required := some false
    views := some [{ id := "reschedule", label := "Reschedule View" }]
    sources := some [defaultSource] }

/-- `systemAfterFields` (lines 292-344 of the source): the `notes`,
`guests` and `rescheduleReason` system fields, in that order. -/
def systemAfterFields (disableGuests additionalNotesRequired : Bool) :
    List Field :=
  [notesSystemField additionalNotesRequired, guestsSystemField disableGuests,
   rescheduleReasonSystemField]

/-- The JS object spread `{ ...field, ...existing }` of lines 354-357 and
408-412: every property present on the existing (DB) field wins; a
property the existing field lacks is filled from the code-defined system
field. -/
def mergeField (field existing : Field) : Field :=
  { name := existing.name
    type := existing.type
    label := existing.label <|> field.label
    defaultLabel := existing.defaultLabel <|> field.defaultLabel
    placeholder := existing.placeholder <|> field.placeholder
    defaultPlaceholder := existing.defaultPlaceholder <|> field.defaultPlaceholder
    required := existing.required <|> field.required
    editable := existing.editable <|> field.editable
    hidden := existing.hidden <|> field.hidden
    options := existing.options <|> field.options
    getOptionsAt := existing.getOptionsAt <|> field.getOptionsAt
    optionsInputs := existing.optionsInputs <|> field.optionsInputs
    hideWhenJustOneOption := existing.hideWhenJustOneOption <|> field.hideWhenJustOneOption
    variantsConfig := existing.variantsConfig <|> field.variantsConfig
    views := existing.views <|> field.views
    sources := existing.sources <|> field.sources
    fieldTypeConfig := existing.fieldTypeConfig <|> field.fieldTypeConfig }

/-- Replace the first element satisfying `p` by its image under `g`
(the effect of `findIndex` followed by assignment at that index, as in
lines 348-357 and 403-412 of the source). -/
def updateFirst (p : Field → Bool) (g : Field → Field) : List Field → List Field
  | [] => []
  | f :: fs => if p f then g f :: fs else f :: updateFirst p g fs

/-- The loop body of lines 347-359 and 402-414: for one code-defined
system field, either merge it under the first existing field of the same
name, or queue it as missing. -/
def mergeOrQueue (acc : List Field × List Field) (field : Field) :
    List Field × List Field :=
  if acc.2.any (fun f => f.name == field.name) then
    (acc.1, updateFirst (fun f => f.name == field.name) (mergeField field) acc.2)
  else
    (acc.1 ++ [field], acc.2)

/-- Collect the SMS provenance records (lines 181-194 of the source):
one `getSmsReminderNumberSource` entry per `SMS_ATTENDEE` step, in
workflow iteration order; `!!step.numberRequired` coerces a missing
`numberRequired` to `false`. -/
def collectSmsNumberSources (workflows : List WorkflowOnEventType) :
    List FieldSource :=
  workflows.flatMap (fun w =>
    w.workflow.steps.filterMap (fun step =>
      if step.action == "SMS_ATTENDEE" then
        some (getSmsReminderNumberSource w.workflow.id
          (step.numberRequired.getD false))
      else none))

/-- Step 3 of the reconciler (lines 346-361): merge-or-queue each
`systemBeforeFields` entry, then prepend the queued missing fields. -/
def ensureStep3 (bookingFields : List Field) : List Field :=
  let acc := systemBeforeFields.foldl mergeOrQueue ([], bookingFields)
  acc.1 ++ acc.2

/-- Step 4 of the reconciler (lines 363-373): if any SMS sources were
collected and no field with a name other than `smsReminderNumber` exists,
splice the SMS reminder field in right after the `location` field
(`findIndex` yields `-1` when `location` is absent, so the splice index
is `0` in that case). -/
def ensureStep4 (smsNumberSources : List FieldSource)
    (bookingFields : List Field) : List Field :=
  if smsNumberSources.length != 0 &&
      !(bookingFields.any (fun f => f.name != SMS_REMINDER_NUMBER_FIELD)) then
    let spliceIndex :=
      match bookingFields.findIdx? (fun f => f.name == "location") with
      | some i => i + 1
      | none => 0
    bookingFields.insertIdx spliceIndex
      { getSmsReminderNumberField with sources := some smsNumberSources }
  else
    bookingFields

/-- The migration of one legacy custom input (lines 377-397 of the
source): label defaults to the camel-cased type, the name is the slug of
the label (or of `type-index`, 1-based, when the label is empty), the
type goes through `CustomInputTypeToFieldType`, and each option's `value`
is set to its `label` verbatim. -/
def migrateCustomInput (index : Nat) (input : CustomInput) : Field :=
  { label := some (if input.label == "" then
        upperCaseToCamelCase input.type.str
      else input.label)
    editable := some Editable.user
    name := slugify (if input.label == "" then
        input.type.str ++ "-" ++ toString (index + 1)
      else input.label)
    placeholder := input.placeholder
    type := CustomInputTypeToFieldType input.type
    required := some input.required
    options := some (match input.options with
      | some os => os.map (fun o => { label := o.label, value := o.label })
      | none => []) }

/-- `customInputs.forEach(...)` of lines 377-398: migrate every custom
input, indices starting at `startIndex`. -/
def migrateFrom (startIndex : Nat) : List CustomInput → List Field
  | [] => []
  | ci :: rest => migrateCustomInput startIndex ci :: migrateFrom (startIndex + 1) rest

/-- Step 5 of the reconciler (lines 375-399): append the migrated legacy
custom inputs, but only when the migration flag is set. -/
def ensureStep5 (handleMigration : Bool) (customInputs : List CustomInput)
    (bookingFields : List Field) : List Field :=
  if handleMigration then bookingFields ++ migrateFrom 0 customInputs
  else bookingFields

/-- Step 6 of the reconciler (lines 401-416): merge-or-queue each
`systemAfterFields` entry, then append the queued missing fields. -/
def ensureStep6 (disableGuests additionalNotesRequired : Bool)
    (bookingFields : List Field) : List Field :=
  let acc := (systemAfterFields disableGuests additionalNotesRequired).foldl
    mergeOrQueue ([], bookingFields)
  acc.2 ++ acc.1

/-- Step 7 of the reconciler (lines 416-425): attach the
`FieldTypeConfigMap` entry of the field's type, when one exists. -/
def attachFieldTypeConfig (field : Field) : Field :=
  match FieldTypeConfigMap field.type with
  | none => field
  | some fieldTypeConfig => { field with fieldTypeConfig := some fieldTypeConfig }

/-- The named-argument record of `ensureBookingInputsHaveSystemFields`. -/
structure EnsureArgs where
  bookingFields : List Field
  disableGuests : Bool
  additionalNotesRequired : Bool
  customInputs : List CustomInput
  workflows : List WorkflowOnEventType
deriving DecidableEq, Repr

/-- The reconciliation pipeline of `ensureBookingInputsHaveSystemFields`
(lines 169-425 of the source), before the final schema parse: the
migration flag is computed from the incoming list, SMS sources are
collected, the before-fields are merged/prepended, the SMS field splice
is attempted, custom inputs are migrated, the after-fields are
merged/appended, and the per-type UI config is attached. -/
def ensureCore (args : EnsureArgs) : List Field :=
  let handleMigration := args.bookingFields.isEmpty
  let smsNumberSources := collectSmsNumberSources args.workflows
  (ensureStep6 args.disableGuests args.additionalNotesRequired
    (ensureStep5 handleMigration args.customInputs
      (ensureStep4 smsNumberSources
        (ensureStep3 args.bookingFields)))).map attachFieldTypeConfig

/-- Modelled from the spec: the `eventTypeBookingFields` zod schema
(`@calcom/prisma/zod-utils`) is not among the sources.  Per the spec
(§4 step 8, §7) validation fails on shape violations and on a "duplicate
name not caught by the merge logic"; in this typed embedding the only
representable violation of an in-memory field list is a duplicate field
name, so the parse succeeds exactly when the names are pairwise
distinct. -/
def eventTypeBookingFieldsListParse (fields : List Field) :
    Option (List Field) :=
  if (fields.map (fun f => f.name)).Nodup then some fields else none

/-- `ensureBookingInputsHaveSystemFields` (lines 144-428 of the source):
the reconciliation pipeline followed by the final
`eventTypeBookingFields.brand(...).parse` of line 427. -/
def ensureBookingInputsHaveSystemFields (args : EnsureArgs) :
    Option (List Field) :=
  eventTypeBookingFieldsListParse (ensureCore args)

/-- A JSON value, the raw shape of the stored `bookingFields`,
`customInputs` and `metadata` columns handed to
`getBookingFieldsWithSystemFields`. -/
inductive Json
  | null
  | bool (b : Bool)
  | num (n : Int)
  | str (s : String)
  | arr (elems : List Json)
  | obj (props : List (String × Json))

/-- Look a key up in a JSON object's property list. -/
def jsonLookup : List (String × Json) → String → Option Json
  | [], _ => none
  | (k, v) :: rest, key => if k == key then some v else jsonLookup rest key

/-- JS truthiness test on a JSON value, for the `x || default` guards of
lines 131-134 of the source. -/
def jsFalsy : Json → Bool
  | Json.null => true
  | Json.bool b => !b
  | Json.num n => n == 0
  | Json.str s => s == ""
  | _ => false

/-- Parse a JSON string. -/
def parseString : Json → Option String
  | Json.str s => some s
  | _ => none

/-- Parse a JSON boolean. -/
def parseBool : Json → Option Bool
  | Json.bool b => some b
  | _ => none

/-- Parse an optional property of a JSON object: an absent key parses to
`none`, a present key must satisfy the property's parser. -/
def parseOptProp (props : List (String × Json)) (key : String)
    (p : Json → Option α) : Option (Option α) :=
  match jsonLookup props key with
  | none => some none
  | some v => (p v).map some

/-- Parse a booking-field `type` string. -/
def parseFieldType (j : Json) : Option FieldType :=
  match j with
  | Json.str "name" => some FieldType.name
  | Json.str "text" => some FieldType.text
  | Json.str "textarea" => some FieldType.textarea
  | Json.str "number" => some FieldType.number
  | Json.str "boolean" => some FieldType.boolean
  | Json.str "radio" => some FieldType.radio
  | Json.str "phone" => some FieldType.phone
  | Json.str "email" => some FieldType.email
  | Json.str "multiemail" => some FieldType.multiemail
  | Json.str "radioInput" => some FieldType.radioInput
  | Json.str "address" => some FieldType.address
  | _ => none

/-- Parse a booking-field `editable` string. -/
def parseEditable : Json → Option Editable
  | Json.str "system" => some Editable.system
  | Json.str "system-but-optional" => some Editable.systemButOptional
  | Json.str "user" => some Editable.user
  | _ => none

/-- Parse one `{label, value}` option of a booking field. -/
def parseFieldOption (j : Json) : Option FieldOption :=
  match j with
  | Json.obj props => do
    let label ← (jsonLookup props "label").bind parseString
    let value ← (jsonLookup props "value").bind parseString
    some { label := label, value := value }
  | _ => none

/-- Parse one provenance record of a booking field. -/
def parseFieldSource (j : Json) : Option FieldSource :=
  match j with
  | Json.obj props => do
    let id ← (jsonLookup props "id").bind parseString
    let type ← (jsonLookup props "type").bind parseString
    let label ← (jsonLookup props "label").bind parseString
    let fieldRequired ← parseOptProp props "fieldRequired" parseBool
    let editUrl ← parseOptProp props "editUrl" parseString
    some { id := id, type := type, label := label,
           fieldRequired := fieldRequired, editUrl := editUrl }
  | _ => none

/-- Parse the elements of a JSON array with `p`, failing if any element
fails. -/
def parseArray (p : Json → Option α) : Json → Option (List α)
  | Json.arr elems => elems.mapM p
  | _ => none

/-- Modelled from the spec: one booking field of the external
`eventTypeBookingFields` zod schema (`@calcom/prisma/zod-utils`), which is
not among the sources.  A field must be an object with a string `name` and
a recognised `type`; the scalar optional properties are validated when
present; the structured properties (`variantsConfig`, `optionsInputs`,
`views`, `fieldTypeConfig`) of raw stored fields are modelled as absent. -/
def parseField (j : Json) : Option Field :=
  match j with
  | Json.obj props => do
    let name ← (jsonLookup props "name").bind parseString
    let type ← (jsonLookup props "type").bind parseFieldType
    let label ← parseOptProp props "label" parseString
    let defaultLabel ← parseOptProp props "defaultLabel" parseString
    let placeholder ← parseOptProp props "placeholder" parseString
    let defaultPlaceholder ← parseOptProp props "defaultPlaceholder" parseString
    let required ← parseOptProp props "required" parseBool
    let editable ← parseOptProp props "editable" parseEditable
    let hidden ← parseOptProp props "hidden" parseBool
    let options ← parseOptProp props "options" (parseArray parseFieldOption)
    let getOptionsAt ← parseOptProp props "getOptionsAt" parseString
    let hideWhenJustOneOption ← parseOptProp props "hideWhenJustOneOption" parseBool
    let sources ← parseOptProp props "sources" (parseArray parseFieldSource)
    some { name := name, type := type, label := label,
           defaultLabel := defaultLabel, placeholder := placeholder,
           defaultPlaceholder := defaultPlaceholder, required := required,
           editable := editable, hidden := hidden, options := options,
           getOptionsAt := getOptionsAt,
           hideWhenJustOneOption := hideWhenJustOneOption,
           sources := sources }
  | _ => none

/-- Modelled from the spec: the full `eventTypeBookingFields` zod parse on
a raw JSON field list — every element must be a valid field and, per spec
§4 step 8 / §7, field names must not collide. -/
def eventTypeBookingFieldsJsonParse (j : Json) : Option (List Field) := do
  let fields ← parseArray parseField j
  eventTypeBookingFieldsListParse fields

/-- Parse one option of a legacy custom input. -/
def parseCustomInputOption (j : Json) : Option CustomInputOption :=
  match j with
  | Json.obj props => do
    let label ← (jsonLookup props "label").bind parseString
    some { label := label }
  | _ => none

/-- Parse a legacy custom-input `type` string. -/
def parseCustomInputType : Json → Option EventTypeCustomInputType
  | Json.str "TEXT" => some EventTypeCustomInputType.TEXT
  | Json.str "TEXTLONG" => some EventTypeCustomInputType.TEXTLONG
  | Json.str "NUMBER" => some EventTypeCustomInputType.NUMBER
  | Json.str "BOOL" => some EventTypeCustomInputType.BOOL
  | Json.str "RADIO" => some EventTypeCustomInputType.RADIO'
  | Json.str "PHONE" => some EventTypeCustomInputType.PHONE
  | _ => none

/-- Modelled from the spec: one legacy custom input of the external
`customInputSchema` (`@calcom/prisma/zod-utils`), which is not among the
sources.  Per spec §3 a custom input carries `label`, `type`, `required`,
`placeholder` and label-only `options`. -/
def parseCustomInput (j : Json) : Option CustomInput :=
  match j with
  | Json.obj props => do
    let label ← (jsonLookup props "label").bind parseString
    let type ← (jsonLookup props "type").bind parseCustomInputType
    let required ← (jsonLookup props "required").bind parseBool
    let placeholder ← parseOptProp props "placeholder" parseString
    let options ← parseOptProp props "options" (parseArray parseCustomInputOption)
    some { label := label, type := type, required := required,
           placeholder := placeholder, options := options }
  | _ => none

/-- Modelled from the spec: `customInputSchema.array().parse`. -/
def customInputArrayParse (j : Json) : Option (List CustomInput) :=
  parseArray parseCustomInput j

/-- The parsed event-type metadata; only `additionalNotesRequired` is read
by the reconciler. -/
structure EventTypeMetaData where
  additionalNotesRequired : Option Bool := none
deriving DecidableEq, Repr

/-- Modelled from the spec: `EventTypeMetaDataSchema.parse`
(`@calcom/prisma/zod-utils` is not among the sources).  The metadata must
be an object; an `additionalNotesRequired` property, when present, must be
a boolean; other properties are not read by the reconciler. -/
def EventTypeMetaDataSchemaParse (j : Json) : Option EventTypeMetaData :=
  match j with
  | Json.obj props => do
    let additionalNotesRequired ← parseOptProp props "additionalNotesRequired" parseBool
    some { additionalNotesRequired := additionalNotesRequired }
  | _ => none

/-- The `x || default` of lines 131-134 of the source: a missing (null /
undefined) or otherwise falsy JSON value is replaced by the default. -/
def jsOrDefault (j : Option Json) (dflt : Json) : Json :=
  match j with
  | none => dflt
  | some v => if jsFalsy v then dflt else v

/-- `getBookingFieldsWithSystemFields` (lines 105-142 of the source):
validate the metadata, the field list and the custom-input list (in that
order, each failure aborting the call), default missing workflows to the
empty list, and hand the parsed values to
`ensureBookingInputsHaveSystemFields`. -/
def getBookingFieldsWithSystemFields (bookingFields : Option Json)
    (disableGuests : Bool) (customInputs : Option Json)
    (metadata : Option Json) (workflows : Option (List WorkflowOnEventType)) :
    Option (List Field) := do
  let parsedMetaData ← EventTypeMetaDataSchemaParse (jsOrDefault metadata (Json.obj []))
  let parsedBookingFields ← eventTypeBookingFieldsJsonParse (jsOrDefault bookingFields (Json.arr []))
  let parsedCustomInputs ← customInputArrayParse (jsOrDefault customInputs (Json.arr []))
  ensureBookingInputsHaveSystemFields
    { bookingFields := parsedBookingFields
      disableGuests := disableGuests
      additionalNotesRequired := parsedMetaData.additionalNotesRequired.getD false
      customInputs := parsedCustomInputs
      workflows := workflows.getD [] }

/-- The system fields queued as missing by one merge-or-queue pass: those
whose name no existing booking field shares. -/
def missingOf (systemFields bookingFields : List Field) : List Field :=
  systemFields.filter (fun s => !(bookingFields.any (fun f => f.name == s.name)))

/-- The booking-field list after one merge-or-queue pass: each code field
is merged under the first existing field of the same name (no-op when no
field has that name). -/
def mergeInto (systemFields bookingFields : List Field) : List Field :=
  systemFields.foldl
    (fun bf s => updateFirst (fun f => f.name == s.name) (mergeField s) bf)
    bookingFields

/-- The field-name order the spec's ordering invariant describes: the
missing "before" system names (in the order `name`, `email`, `location`)
ahead of the input field names, then the migrated names (when the input
list was empty), then the missing "after" system names (in the order
`notes`, `guests`, `rescheduleReason`) behind everything already
present. -/
def reconciledNames (args : EnsureArgs) : List String :=
  let beforeNames := ["name", "email", "location"].filter
    (fun n => !(args.bookingFields.any (fun f => f.name == n)))
  let migNames := if args.bookingFields.isEmpty then
    (migrateFrom 0 args.customInputs).map (fun f => f.name) else []
  let midNames := beforeNames ++ args.bookingFields.map (fun f => f.name) ++ migNames
  midNames ++ ["notes", "guests", "rescheduleReason"].filter
    (fun n => !(midNames.any (fun m => m == n)))

/-- A workflow with id 7 and a single `SMS_ATTENDEE` step with
`numberRequired: true`, as in the spec's SMS testable property. -/
def workflowSms7 : WorkflowOnEventType :=
  { workflow :=
      { id := 7
        steps := [{ action := "SMS_ATTENDEE", numberRequired := some true }] } }

/-- A plain user-owned booking field. -/
def sampleUserField : Field :=
  { name := "favoriteColor"
    type := FieldType.text
    label := some "Favorite Color"
    editable := some Editable.user
    required := some false }

/-- The SMS scenario of the spec's testable property: a non-empty field
list lacking the SMS field, and one SMS-attendee workflow (id 7,
`numberRequired: true`). -/
def smsScenarioArgs : EnsureArgs :=
  { bookingFields := [sampleUserField]
    disableGuests := false
    additionalNotesRequired := false
    customInputs := []
    workflows := [workflowSms7] }

/-- An empty field list together with one SMS-attendee workflow. -/
def smsEmptyScenarioArgs : EnsureArgs :=
  { bookingFields := []
    disableGuests := false
    additionalNotesRequired := false
    customInputs := []
    workflows := [workflowSms7] }

/-- The migration scenario of the spec's testable property: an empty
field list and the two legacy custom inputs
`{label: "Company", type: TEXT}` and `{label: "", type: NUMBER}`. -/
def migrationScenarioArgs : EnsureArgs :=
  { bookingFields := []
    disableGuests := false
    additionalNotesRequired := false
    customInputs :=
      [{ label := "Company", type := EventTypeCustomInputType.TEXT, required := true },
       { label := "", type := EventTypeCustomInputType.NUMBER, required := false }]
    workflows := [] }

/-- A field list whose `guests` field carries a user-set `hidden: false`,
run with `disableGuests: true`. -/
def guestsOverrideArgs : EnsureArgs :=
  { bookingFields :=
      [{ name := "guests"
         type := FieldType.multiemail
         editable := some Editable.systemButOptional
         required := some false
         hidden := some false }]
    disableGuests := true
    additionalNotesRequired := false
    customInputs := []
    workflows := [] }

/-- A field list whose `email` field carries a user-set `required: false`. -/
def emailOverrideArgs : EnsureArgs :=
  { bookingFields :=
      [{ name := "email"
         type := FieldType.email
         editable := some Editable.system
         required := some false }]
    disableGuests := false
    additionalNotesRequired := false
    customInputs := []
    workflows := [] }

theorem orElse_self {α : Type} (a : Option α) : (a <|> a) = a := by
  cases a <;> rfl

theorem orElse_orElse_self {α : Type} (a b : Option α) :
    ((a <|> b) <|> b) = (a <|> b) := by
  cases a <;> cases b <;> rfl

theorem mergeField_name (c f : Field) : (mergeField c f).name = f.name := rfl

theorem mergeField_type (c f : Field) : (mergeField c f).type = f.type := rfl

theorem mergeField_mergeField (c x : Field) :
    mergeField c (mergeField c x) = mergeField c x := by
  simp [mergeField, orElse_orElse_self]

theorem mergeField_self (c : Field) : mergeField c c = c := by
  simp [mergeField, orElse_self]

theorem attachFieldTypeConfig_name (f : Field) :
    (attachFieldTypeConfig f).name = f.name := by
  unfold attachFieldTypeConfig
  split <;> rfl

theorem attachFieldTypeConfig_type (f : Field) :
    (attachFieldTypeConfig f).type = f.type := by
  unfold attachFieldTypeConfig
  split <;> rfl

theorem attachFieldTypeConfig_attachFieldTypeConfig (f : Field) :
    attachFieldTypeConfig (attachFieldTypeConfig f) = attachFieldTypeConfig f := by
  unfold attachFieldTypeConfig
  rcases h : FieldTypeConfigMap f.type with _ | cfg <;> simp [h]

theorem mergeField_absorb (c x : Field) :
    mergeField c (attachFieldTypeConfig (mergeField c x)) =
      attachFieldTypeConfig (mergeField c x) := by
  unfold attachFieldTypeConfig
  rcases h : FieldTypeConfigMap (mergeField c x).type with _ | cfg
  · simp [mergeField_mergeField]
  · simp [mergeField, orElse_orElse_self]

theorem updateFirst_of_any_eq_false {p : Field → Bool} {g : Field → Field}
    {l : List Field} (h : l.any p = false) : updateFirst p g l = l := by
  induction l with
  | nil => rfl
  | cons f fs ih =>
    simp only [List.any_cons, Bool.or_eq_false_iff] at h
    simp [updateFirst, h.1, ih h.2]

theorem map_name_updateFirst {p : Field → Bool} {g : Field → Field}
    (hg : ∀ f, (g f).name = f.name) (l : List Field) :
    (updateFirst p g l).map (fun f => f.name) = l.map (fun f => f.name) := by
  induction l with
  | nil => rfl
  | cons f fs ih =>
    by_cases hpf : p f = true
    · simp [updateFirst, hpf, hg]
    · simp only [Bool.not_eq_true] at hpf
      simp [updateFirst, hpf, ih]

theorem find?_updateFirst_self {p : Field → Bool} {g : Field → Field}
    (hg : ∀ f, p (g f) = p f) (l : List Field) :
    (updateFirst p g l).find? p = (l.find? p).map g := by
  induction l with
  | nil => rfl
  | cons f fs ih =>
    cases hpf : p f
    · simp [updateFirst, hpf, List.find?_cons, ih]
    · simp [updateFirst, hpf, List.find?_cons, hg]

theorem find?_updateFirst_disj {p q : Field → Bool} {g : Field → Field}
    (hq : ∀ f, q f = true → p f = false) (hg : ∀ f, p (g f) = p f)
    (l : List Field) :
    (updateFirst q g l).find? p = l.find? p := by
  induction l with
  | nil => rfl
  | cons f fs ih =>
    cases hqf : q f
    · cases hpf : p f <;> simp [updateFirst, hqf, List.find?_cons, hpf, ih]
    · have hpf : p f = false := hq f hqf
      have hpgf : p (g f) = false := by rw [hg]; exact hpf
      simp [updateFirst, hqf, List.find?_cons, hpf, hpgf]

theorem updateFirst_eq_self {p : Field → Bool} {g : Field → Field}
    {l : List Field} (h : ∀ f, l.find? p = some f → g f = f) :
    updateFirst p g l = l := by
  induction l with
  | nil => rfl
  | cons f fs ih =>
    cases hpf : p f
    · simp only [updateFirst, hpf, Bool.false_eq_true, if_false, List.cons.injEq,
        true_and]
      exact ih (fun x hx => h x (by simp [List.find?_cons, hpf, hx]))
    · simp only [updateFirst, hpf, if_true, List.cons.injEq, and_true]
      exact h f (by simp [List.find?_cons, hpf])

theorem any_name_eq {l l' : List Field}
    (h : l.map (fun f => f.name) = l'.map (fun f => f.name)) (n : String) :
    (l.any (fun f => f.name == n)) = (l'.any (fun f => f.name == n)) := by
  have key : ∀ (xs : List Field),
      (xs.any (fun f => f.name == n)) =
        ((xs.map (fun f => f.name)).any (fun m => m == n)) := by
    intro xs
    induction xs with
    | nil => rfl
    | cons x rest ih => simp [List.any_cons, ih]
  rw [key, key, h]

theorem foldl_mergeOrQueue (sys : List Field) (m bf : List Field) :
    sys.foldl mergeOrQueue (m, bf) =
      (m ++ missingOf sys bf, mergeInto sys bf) := by
  induction sys generalizing m bf with
  | nil => simp [missingOf, mergeInto]
  | cons s rest ih =>
    cases hpres : bf.any (fun f => f.name == s.name)
    · have hstep : mergeOrQueue (m, bf) s = (m ++ [s], bf) := by
        simp [mergeOrQueue, hpres]
      have hmi : mergeInto (s :: rest) bf = mergeInto rest bf := by
        simp only [mergeInto, List.foldl_cons]
        rw [updateFirst_of_any_eq_false hpres]
      rw [List.foldl_cons, hstep, ih]
      simp [missingOf, List.filter_cons, hpres, hmi]
    · have hstep : mergeOrQueue (m, bf) s =
          (m, updateFirst (fun f => f.name == s.name) (mergeField s) bf) := by
        simp [mergeOrQueue, hpres]
      have hnames : (updateFirst (fun f => f.name == s.name) (mergeField s) bf).map
          (fun f => f.name) = bf.map (fun f => f.name) :=
        map_name_updateFirst (fun f => mergeField_name s f) bf
      have hmiss : missingOf rest
          (updateFirst (fun f => f.name == s.name) (mergeField s) bf) =
          missingOf rest bf := by
        simp only [missingOf]
        apply List.filter_congr
        intro x _
        rw [any_name_eq hnames]
      rw [List.foldl_cons, hstep, ih, hmiss]
      simp [missingOf, List.filter_cons, hpres, mergeInto]

theorem ensureStep3_eq (bf : List Field) :
    ensureStep3 bf = missingOf systemBeforeFields bf ++ mergeInto systemBeforeFields bf := by
  unfold ensureStep3
  rw [foldl_mergeOrQueue]
  rfl

theorem ensureStep6_eq (dg anr : Bool) (bf : List Field) :
    ensureStep6 dg anr bf =
      mergeInto (systemAfterFields dg anr) bf ++ missingOf (systemAfterFields dg anr) bf := by
  unfold ensureStep6
  rw [foldl_mergeOrQueue]
  rfl

theorem mergeInto_map_name (sys bf : List Field) :
    (mergeInto sys bf).map (fun f => f.name) = bf.map (fun f => f.name) := by
  induction sys generalizing bf with
  | nil => rfl
  | cons s rest ih =>
    simp only [mergeInto, List.foldl_cons]
    rw [show rest.foldl
        (fun b s' => updateFirst (fun f => f.name == s'.name) (mergeField s') b)
        (updateFirst (fun f => f.name == s.name) (mergeField s) bf) =
        mergeInto rest (updateFirst (fun f => f.name == s.name) (mergeField s) bf) from rfl]
    rw [ih]
    exact map_name_updateFirst (fun f => mergeField_name s f) bf

theorem any_name_map (l : List Field) (n : String) :
    (l.any (fun f => f.name == n)) =
      ((l.map (fun f => f.name)).any (fun m => m == n)) := by
  induction l with
  | nil => rfl
  | cons x rest ih => simp [List.any_cons, ih]

theorem lowerChar_ne_R (c : Char) : lowerChar c ≠ 'R' := by
  rcases h : upperLowerPairs.find? (fun p => p.1 == c) with _ | p
  · simp only [lowerChar, h]
    intro hc
    rw [List.find?_eq_none] at h
    have hmem : ('R', 'r') ∈ upperLowerPairs := by decide
    have hne := h _ hmem
    simp only [beq_iff_eq] at hne
    exact hne hc.symm
  · simp only [lowerChar, h]
    intro hc
    have hp : p ∈ upperLowerPairs := List.mem_of_find?_eq_some h
    have hall : ∀ q ∈ upperLowerPairs, q.2 ≠ 'R' := by decide
    exact hall p hp hc

theorem slugify_ne_sms (s : String) : slugify s ≠ "smsReminderNumber" := by
  unfold slugify
  intro h
  have hdata : s.toList.map (fun c =>
      if c.isAlpha then lowerChar c
      else if c.isDigit || c == '-' then c
      else '-') = "smsReminderNumber".data := congrArg String.data h
  have hR : 'R' ∈ s.toList.map (fun c =>
      if c.isAlpha then lowerChar c
      else if c.isDigit || c == '-' then c
      else '-') := by
    rw [hdata]; decide
  obtain ⟨c, -, hc⟩ := List.mem_map.mp hR
  split_ifs at hc with h1 h2
  · exact lowerChar_ne_R c hc
  · subst hc
    exact h1 (by decide)
  · exact absurd hc (by decide)

theorem migrateFrom_name_ne_sms (k : Nat) (cis : List CustomInput) :
    ∀ f ∈ migrateFrom k cis, f.name ≠ SMS_REMINDER_NUMBER_FIELD := by
  induction cis generalizing k with
  | nil => intro f hf; cases hf
  | cons ci rest ih =>
    intro f hf
    rcases List.mem_cons.mp hf with heq | hmem
    · subst heq
      exact slugify_ne_sms _
    · exact ih (k + 1) f hmem

theorem systemBeforeFields_map_name :
    systemBeforeFields.map (fun f => f.name) = ["name", "email", "location"] := rfl

theorem systemAfterFields_map_name (dg anr : Bool) :
    (systemAfterFields dg anr).map (fun f => f.name) =
      ["notes", "guests", "rescheduleReason"] := rfl

theorem missingOf_map_name (sys bf : List Field) :
    (missingOf sys bf).map (fun f => f.name) =
      (sys.map (fun f => f.name)).filter
        (fun n => !(bf.any (fun f => f.name == n))) := by
  induction sys with
  | nil => rfl
  | cons s rest ih =>
    simp only [missingOf, List.map_cons, List.filter_cons] at ih ⊢
    cases h : bf.any (fun f => f.name == s.name) <;> simp [h, ih]

theorem ensureStep3_map_name (bf : List Field) :
    (ensureStep3 bf).map (fun f => f.name) =
      ["name", "email", "location"].filter
        (fun n => !(bf.any (fun f => f.name == n))) ++
      bf.map (fun f => f.name) := by
  rw [ensureStep3_eq, List.map_append, mergeInto_map_name, missingOf_map_name,
    systemBeforeFields_map_name]

theorem ensureStep5_map_name (h : Bool) (cis : List CustomInput) (l : List Field) :
    (ensureStep5 h cis l).map (fun f => f.name) =
      l.map (fun f => f.name) ++
        (if h then (migrateFrom 0 cis).map (fun f => f.name) else []) := by
  cases h <;> simp [ensureStep5]

theorem map_name_map_attach (l : List Field) :
    (l.map attachFieldTypeConfig).map (fun f => f.name) =
      l.map (fun f => f.name) := by
  simp [List.map_map, Function.comp, attachFieldTypeConfig_name]

theorem ensureStep4_of_any (sms : List FieldSource) (bf : List Field)
    (h : bf.any (fun f => f.name != SMS_REMINDER_NUMBER_FIELD) = true) :
    ensureStep4 sms bf = bf := by
  unfold ensureStep4
  simp [h]

theorem ensureStep3_any_ne_sms (bf : List Field) :
    (ensureStep3 bf).any (fun f => f.name != SMS_REMINDER_NUMBER_FIELD) = true := by
  have hnames : "name" ∈ (ensureStep3 bf).map (fun f => f.name) := by
    rw [ensureStep3_map_name]
    cases h : bf.any (fun f => f.name == "name")
    · apply List.mem_append_left
      simp [List.filter_cons, h]
    · apply List.mem_append_right
      rcases List.any_eq_true.mp h with ⟨f, hmem, hfn⟩
      have hn : f.name = "name" := by simpa using hfn
      exact hn ▸ List.mem_map_of_mem _ hmem
  rcases List.mem_map.mp hnames with ⟨f, hmem, hfn⟩
  apply List.any_eq_true.mpr
  refine ⟨f, hmem, ?_⟩
  rw [show f.name = "name" from hfn]
  decide

theorem ensureCore_eq (args : EnsureArgs) :
    ensureCore args =
      (ensureStep6 args.disableGuests args.additionalNotesRequired
        (ensureStep5 args.bookingFields.isEmpty args.customInputs
          (ensureStep3 args.bookingFields))).map attachFieldTypeConfig := by
  show (ensureStep6 args.disableGuests args.additionalNotesRequired
      (ensureStep5 args.bookingFields.isEmpty args.customInputs
        (ensureStep4 (collectSmsNumberSources args.workflows)
          (ensureStep3 args.bookingFields)))).map attachFieldTypeConfig = _
  rw [ensureStep4_of_any _ _ (ensureStep3_any_ne_sms args.bookingFields)]

theorem ensureCore_map_name (args : EnsureArgs) :
    (ensureCore args).map (fun f => f.name) = reconciledNames args := by
  have hmid : (ensureStep5 args.bookingFields.isEmpty args.customInputs
      (ensureStep3 args.bookingFields)).map (fun f => f.name) =
      ["name", "email", "location"].filter
        (fun n => !(args.bookingFields.any (fun f => f.name == n))) ++
      args.bookingFields.map (fun f => f.name) ++
      (if args.bookingFields.isEmpty then
        (migrateFrom 0 args.customInputs).map (fun f => f.name) else []) := by
    rw [ensureStep5_map_name, ensureStep3_map_name]
  rw [ensureCore_eq, map_name_map_attach, ensureStep6_eq, List.map_append,
    mergeInto_map_name, hmid, missingOf_map_name, systemAfterFields_map_name]
  show _ ++ List.filter _ _ = _
  unfold reconciledNames
  simp only [any_name_map, hmid]

theorem listParse_some {x l : List Field}
    (h : eventTypeBookingFieldsListParse x = some l) :
    l = x ∧ (x.map (fun f => f.name)).Nodup := by
  unfold eventTypeBookingFieldsListParse at h
  split at h
  · exact ⟨(Option.some.inj h).symm, by assumption⟩
  · cases h

theorem ensure_some {args : EnsureArgs} {l : List Field}
    (h : ensureBookingInputsHaveSystemFields args = some l) :
    l = ensureCore args ∧ ((ensureCore args).map (fun f => f.name)).Nodup :=
  listParse_some h

theorem mem_reconciledNames_before (args : EnsureArgs) (n : String)
    (hn : n ∈ ["name", "email", "location"]) : n ∈ reconciledNames args := by
  unfold reconciledNames
  apply List.mem_append_left
  apply List.mem_append_left
  cases h : args.bookingFields.any (fun f => f.name == n)
  · apply List.mem_append_left
    exact List.mem_filter.mpr ⟨hn, by simp [h]⟩
  · apply List.mem_append_right
    rcases List.any_eq_true.mp h with ⟨f, hmem, hfn⟩
    have hfn' : f.name = n := by simpa using hfn
    exact hfn' ▸ List.mem_map_of_mem _ hmem

theorem mem_reconciledNames_after (args : EnsureArgs) (m : String)
    (hm : m ∈ ["notes", "guests", "rescheduleReason"]) :
    m ∈ reconciledNames args := by
  unfold reconciledNames
  cases h : (["name", "email", "location"].filter
      (fun n => !(args.bookingFields.any (fun f => f.name == n))) ++
      args.bookingFields.map (fun f => f.name) ++
      (if args.bookingFields.isEmpty then
        (migrateFrom 0 args.customInputs).map (fun f => f.name) else [])).any
      (fun x => x == m)
  · apply List.mem_append_right
    refine List.mem_filter.mpr ⟨hm, ?_⟩
    show (!_) = true
    rw [h]
    rfl
  · apply List.mem_append_left
    rcases List.any_eq_true.mp h with ⟨x, hmem, hx⟩
    have hx' : x = m := by simpa using hx
    exact hx' ▸ hmem

theorem sms_mem_reconciledNames (args : EnsureArgs) :
    ("smsReminderNumber" ∈ reconciledNames args) ↔
      ("smsReminderNumber" ∈ args.bookingFields.map (fun f => f.name)) := by
  unfold reconciledNames
  constructor
  · intro h
    rcases List.mem_append.mp h with hmid | hafter
    · rcases List.mem_append.mp hmid with hbm | hmig
      · rcases List.mem_append.mp hbm with hbefore | hbf
        · exact absurd (List.mem_filter.mp hbefore).1 (by decide)
        · exact hbf
      · exfalso
        cases hempty : args.bookingFields.isEmpty
        · rw [hempty] at hmig
          simp at hmig
        · rw [hempty] at hmig
          simp only [if_true] at hmig
          rcases List.mem_map.mp hmig with ⟨f, hf, hfn⟩
          exact migrateFrom_name_ne_sms 0 args.customInputs f hf hfn
    · exact absurd (List.mem_filter.mp hafter).1 (by decide)
  · intro h
    apply List.mem_append_left
    apply List.mem_append_left
    exact List.mem_append_right _ h

/-- C2 (amended): for every input on which the reconciler succeeds, the
returned list contains exactly one field named each of `name`, `email`,
`location`, `notes`, `guests` and `rescheduleReason`; and it contains a
field named `smsReminderNumber` if and only if the input field list
already contained one (the workflow SMS steps never cause the field to be
added, because the injection guard of line 366 is never satisfied once the
"before" system fields are present). -/
theorem claim_C2_amended (args : EnsureArgs) (l : List Field)
    (h : ensureBookingInputsHaveSystemFields args = some l) :
    (((l.map (fun f => f.name)).count "name" = 1) ∧
     ((l.map (fun f => f.name)).count "email" = 1) ∧
     ((l.map (fun f => f.name)).count "location" = 1) ∧
     ((l.map (fun f => f.name)).count "notes" = 1) ∧
     ((l.map (fun f => f.name)).count "guests" = 1) ∧
     ((l.map (fun f => f.name)).count "rescheduleReason" = 1)) ∧
    ("smsReminderNumber" ∈ l.map (fun f => f.name) ↔
     "smsReminderNumber" ∈ args.bookingFields.map (fun f => f.name)) := by
  obtain ⟨hl, hnodup⟩ := ensure_some h
  subst hl
  have hnames := ensureCore_map_name args
  constructor
  · have hcount : ∀ n, n ∈ (ensureCore args).map (fun f => f.name) →
        ((ensureCore args).map (fun f => f.name)).count n = 1 := by
      intro n hmem
      have hle := List.nodup_iff_count_le_one.mp hnodup n
      have hge : 0 < ((ensureCore args).map (fun f => f.name)).count n :=
        List.count_pos_iff.mpr hmem
      omega
    refine ⟨hcount _ ?_, hcount _ ?_, hcount _ ?_, hcount _ ?_, hcount _ ?_,
      hcount _ ?_⟩ <;> rw [hnames]
    · exact mem_reconciledNames_before args _ (by decide)
    · exact mem_reconciledNames_before args _ (by decide)
    · exact mem_reconciledNames_before args _ (by decide)
    · exact mem_reconciledNames_after args _ (by decide)
    · exact mem_reconciledNames_after args _ (by decide)
    · exact mem_reconciledNames_after args _ (by decide)
  · rw [hnames]
    exact sms_mem_reconciledNames args

/-- Witness for C2 (amended), at the SMS scenario input. -/
theorem claim_C2_amended_witness :
    ((((ensureBookingInputsHaveSystemFields smsScenarioArgs).getD []).map
      (fun f => f.name)).count "name" = 1) := by
  have h : ensureBookingInputsHaveSystemFields smsScenarioArgs =
      some ((ensureBookingInputsHaveSystemFields smsScenarioArgs).getD []) := by
    decide
  exact (claim_C2_amended smsScenarioArgs _ h).1.1

/-- C2 as stated is false: with an empty field list and one workflow
contributing an SMS-attendee step, the reconciler succeeds but the output
contains no field named `smsReminderNumber`. -/
theorem claim_C2_counterexample :
    (ensureBookingInputsHaveSystemFields smsEmptyScenarioArgs).isSome = true ∧
    (smsEmptyScenarioArgs.workflows.any (fun w =>
      w.workflow.steps.any (fun s => s.action == "SMS_ATTENDEE"))) = true ∧
    ((((ensureBookingInputsHaveSystemFields smsEmptyScenarioArgs).getD []).map
      (fun f => f.name)).contains "smsReminderNumber") = false := by
  refine ⟨by decide, by decide, by decide⟩

/-- C1: the code never inserts the SMS reminder field.  At the spec's own
SMS scenario — a non-empty field list lacking `smsReminderNumber` and one
SMS-attendee workflow (id 7, `numberRequired: true`) — the reconciler
succeeds but the output contains no field named `smsReminderNumber`: the
guard of line 366 (`!bookingFields.find(f => f.name !== SMS...)`) is
falsified by, e.g., the `name` field, contradicting the code's own comment
that the field "would be added". -/
theorem claim_C1_failing_eval :
    (ensureBookingInputsHaveSystemFields smsScenarioArgs).isSome = true ∧
    ((((ensureBookingInputsHaveSystemFields smsScenarioArgs).getD []).map
      (fun f => f.name)).contains "smsReminderNumber") = false := by
  refine ⟨by decide, by decide⟩

/-- C8: the reconciled field names are exactly the missing "before"
system names (order `name`, `email`, `location`) prepended ahead of the
input field names, followed by the migrated names (only when the input
list was empty), followed by the missing "after" system names (order
`notes`, `guests`, `rescheduleReason`) appended behind every field present
before the append step; fields already present keep their relative
positions. -/
theorem claim_C8_order (args : EnsureArgs) (l : List Field)
    (h : ensureBookingInputsHaveSystemFields args = some l) :
    l.map (fun f => f.name) = reconciledNames args := by
  obtain ⟨hl, -⟩ := ensure_some h
  subst hl
  exact ensureCore_map_name args

/-- Witness for C8, at the migration scenario input. -/
theorem claim_C8_order_witness :
    ((ensureBookingInputsHaveSystemFields migrationScenarioArgs).getD []).map
      (fun f => f.name) = reconciledNames migrationScenarioArgs := by
  have h : ensureBookingInputsHaveSystemFields migrationScenarioArgs =
      some ((ensureBookingInputsHaveSystemFields migrationScenarioArgs).getD []) := by
    decide
  exact claim_C8_order migrationScenarioArgs _ h

/-- C6: the legacy custom-input migration runs only when the incoming
field list is empty; for a non-empty field list the `customInputs`
argument has no effect on the result. -/
theorem claim_C6_migration_only_when_empty (bf : List Field) (dg anr : Bool)
    (ci1 ci2 : List CustomInput) (wfs : List WorkflowOnEventType)
    (h : bf ≠ []) :
    ensureBookingInputsHaveSystemFields
      { bookingFields := bf, disableGuests := dg, additionalNotesRequired := anr,
        customInputs := ci1, workflows := wfs } =
    ensureBookingInputsHaveSystemFields
      { bookingFields := bf, disableGuests := dg, additionalNotesRequired := anr,
        customInputs := ci2, workflows := wfs } := by
  have hne : bf.isEmpty = false := by
    cases bf with
    | nil => exact absurd rfl h
    | cons a rest => rfl
  unfold ensureBookingInputsHaveSystemFields
  rw [ensureCore_eq, ensureCore_eq]
  dsimp only
  rw [show ensureStep5 bf.isEmpty ci1 (ensureStep3 bf) =
      ensureStep3 bf by simp [ensureStep5, hne]]
  rw [show ensureStep5 bf.isEmpty ci2 (ensureStep3 bf) =
      ensureStep3 bf by simp [ensureStep5, hne]]

/-- Witness for C6: at a concrete non-empty field list, two different
custom-input lists give the same result. -/
theorem claim_C6_witness :
    ensureBookingInputsHaveSystemFields
      { bookingFields := [sampleUserField], disableGuests := false,
        additionalNotesRequired := false, customInputs := [], workflows := [] } =
    ensureBookingInputsHaveSystemFields
      { bookingFields := [sampleUserField], disableGuests := false,
        additionalNotesRequired := false,
        customInputs := migrationScenarioArgs.customInputs,
        workflows := [] } :=
  claim_C6_migration_only_when_empty [sampleUserField] false false _ _ _
    (by decide)

theorem attachFieldTypeConfig_required (f : Field) :
    (attachFieldTypeConfig f).required = f.required := by
  unfold attachFieldTypeConfig
  split <;> rfl

theorem attachFieldTypeConfig_hidden (f : Field) :
    (attachFieldTypeConfig f).hidden = f.hidden := by
  unfold attachFieldTypeConfig
  split <;> rfl

theorem find?_map_attach (p : Field → Bool)
    (hp : ∀ f, p (attachFieldTypeConfig f) = p f) (l : List Field) :
    (l.map attachFieldTypeConfig).find? p = (l.find? p).map attachFieldTypeConfig := by
  induction l with
  | nil => rfl
  | cons f fs ih =>
    simp only [List.map_cons, List.find?_cons, hp]
    cases hpf : p f <;> simp [hpf, ih]

theorem find?_mergeInto_of_disjoint (sys : List Field) (n : String)
    (bf : List Field) (h : ∀ s ∈ sys, s.name ≠ n) :
    (mergeInto sys bf).find? (fun f => f.name == n) =
      bf.find? (fun f => f.name == n) := by
  induction sys generalizing bf with
  | nil => rfl
  | cons s rest ih =>
    show (mergeInto rest
        (updateFirst (fun f => f.name == s.name) (mergeField s) bf)).find?
        (fun f => f.name == n) = _
    rw [ih _ (fun s' hs' => h s' (List.mem_cons_of_mem _ hs'))]
    apply find?_updateFirst_disj
    · intro f hf
      have hfs : f.name = s.name := by simpa using hf
      simp [hfs, h s (List.mem_cons_self _ _)]
    · intro f
      rw [mergeField_name]

theorem find?_mergeInto_self (sys : List Field) (c : Field) (bf : List Field)
    (hmem : c ∈ sys) (hnodup : (sys.map (fun f => f.name)).Nodup) :
    (mergeInto sys bf).find? (fun f => f.name == c.name) =
      (bf.find? (fun f => f.name == c.name)).map (mergeField c) := by
  induction sys generalizing bf with
  | nil => cases hmem
  | cons s rest ih =>
    have hpair := List.nodup_cons.mp hnodup
    rcases List.mem_cons.mp hmem with heq | hmem'
    · subst heq
      show (mergeInto rest
          (updateFirst (fun f => f.name == c.name) (mergeField c) bf)).find?
          (fun f => f.name == c.name) = _
      have hrest : ∀ f ∈ rest, f.name ≠ c.name := fun f hf hc =>
        hpair.1 (by show c.name ∈ _; rw [← hc]; exact List.mem_map_of_mem _ hf)
      rw [find?_mergeInto_of_disjoint rest c.name _ hrest]
      exact find?_updateFirst_self (fun f => by rw [mergeField_name]) bf
    · have hs : s.name ≠ c.name := fun hc =>
        hpair.1 (by show s.name ∈ _; rw [hc]; exact List.mem_map_of_mem _ hmem')
      show (mergeInto rest
          (updateFirst (fun f => f.name == s.name) (mergeField s) bf)).find?
          (fun f => f.name == c.name) = _
      rw [ih _ hmem' hpair.2]
      congr 1
      apply find?_updateFirst_disj
      · intro f hf
        have hfs : f.name = s.name := by simpa using hf
        simp [hfs, hs]
      · intro f
        rw [mergeField_name]

theorem find?_missingOf (sys : List Field) (c : Field) (bf : List Field)
    (hmem : c ∈ sys) (hnodup : (sys.map (fun f => f.name)).Nodup) :
    (missingOf sys bf).find? (fun f => f.name == c.name) =
      if bf.any (fun f => f.name == c.name) then none else some c := by
  induction sys with
  | nil => cases hmem
  | cons s rest ih =>
    have hpair := List.nodup_cons.mp hnodup
    rcases List.mem_cons.mp hmem with heq | hmem'
    · subst heq
      have hrest : (missingOf rest bf).find? (fun f => f.name == c.name) = none := by
        rw [List.find?_eq_none]
        intro x hx
        have hxs : x ∈ rest := List.mem_of_mem_filter hx
        have hxname : x.name ≠ c.name := fun hc =>
          hpair.1 (by show c.name ∈ _; rw [← hc]; exact List.mem_map_of_mem _ hxs)
        simp [hxname]
      simp only [missingOf, List.filter_cons] at hrest ⊢
      cases hany : bf.any (fun f => f.name == c.name)
      · simp [hany, List.find?_cons]
      · simp [hany, hrest]
    · have hs : s.name ≠ c.name := fun hc =>
        hpair.1 (by show s.name ∈ _; rw [hc]; exact List.mem_map_of_mem _ hmem')
      have hres := ih hmem' hpair.2
      simp only [missingOf, List.filter_cons] at hres ⊢
      cases hcond : bf.any (fun f => f.name == s.name)
      · have hps : (s.name == c.name) = false := by simp [hs]
        simp [hcond, List.find?_cons, hps, hres]
      · simp [hcond, hres]

theorem any_eq_false_of_find?_eq_none {p : Field → Bool} {l : List Field}
    (h : l.find? p = none) : l.any p = false := by
  cases hany : l.any p
  · rfl
  · rcases List.any_eq_true.mp hany with ⟨f, hmem, hpf⟩
    rw [List.find?_eq_none] at h
    exact absurd hpf (h f hmem)

theorem before_after_names_disjoint (x y : String)
    (hx : x ∈ ["name", "email", "location"])
    (hy : y ∈ ["notes", "guests", "rescheduleReason"]) : y ≠ x := by
  simp only [List.mem_cons, List.not_mem_nil, or_false] at hx hy
  rcases hx with h1 | h1 | h1 <;> rcases hy with h2 | h2 | h2 <;>
    rw [h1, h2] <;> decide

theorem ensureCore_find_before (args : EnsureArgs) (c : Field)
    (hmem : c ∈ systemBeforeFields) :
    ∃ x, (ensureCore args).find? (fun f => f.name == c.name) =
        some (attachFieldTypeConfig (mergeField c x)) ∧
      (args.bookingFields.find? (fun f => f.name == c.name) = some x ∨
       (args.bookingFields.find? (fun f => f.name == c.name) = none ∧ x = c)) := by
  have hnodupB : (systemBeforeFields.map (fun f => f.name)).Nodup := by
    rw [systemBeforeFields_map_name]; decide
  have hcname : c.name ∈ ["name", "email", "location"] := by
    have h := List.mem_map_of_mem (fun f => f.name) hmem
    rwa [systemBeforeFields_map_name] at h
  have hafterdisj : ∀ s ∈ systemAfterFields args.disableGuests
      args.additionalNotesRequired, s.name ≠ c.name := by
    intro s hs
    have hsname : s.name ∈ ["notes", "guests", "rescheduleReason"] := by
      have h := List.mem_map_of_mem (fun f => f.name) hs
      rwa [systemAfterFields_map_name] at h
    exact before_after_names_disjoint c.name s.name hcname hsname
  have hstep3 : ∃ x, (ensureStep3 args.bookingFields).find?
      (fun f => f.name == c.name) = some (mergeField c x) ∧
      (args.bookingFields.find? (fun f => f.name == c.name) = some x ∨
       (args.bookingFields.find? (fun f => f.name == c.name) = none ∧ x = c)) := by
    cases hf : args.bookingFields.find? (fun f => f.name == c.name) with
    | some f₀ =>
      refine ⟨f₀, ?_, Or.inl rfl⟩
      have hany : args.bookingFields.any (fun f => f.name == c.name) = true := by
        have hp := List.find?_some hf
        exact List.any_eq_true.mpr ⟨f₀, List.mem_of_find?_eq_some hf, hp⟩
      rw [ensureStep3_eq, List.find?_append,
        find?_missingOf _ _ _ hmem hnodupB, hany,
        find?_mergeInto_self _ _ _ hmem hnodupB, hf]
      rfl
    | none =>
      refine ⟨c, ?_, Or.inr ⟨rfl, rfl⟩⟩
      have hany : args.bookingFields.any (fun f => f.name == c.name) = false :=
        any_eq_false_of_find?_eq_none hf
      rw [ensureStep3_eq, List.find?_append,
        find?_missingOf _ _ _ hmem hnodupB, hany,
        find?_mergeInto_self _ _ _ hmem hnodupB, hf]
      simp [mergeField_self]
  obtain ⟨x, hx3, hxcase⟩ := hstep3
  have hstep5 : (ensureStep5 args.bookingFields.isEmpty args.customInputs
      (ensureStep3 args.bookingFields)).find? (fun f => f.name == c.name) =
      some (mergeField c x) := by
    unfold ensureStep5
    cases hemp : args.bookingFields.isEmpty
    · simpa using hx3
    · simp only [if_true]
      rw [List.find?_append, hx3]
      rfl
  refine ⟨x, ?_, hxcase⟩
  rw [ensureCore_eq,
    find?_map_attach _ (fun f => by rw [attachFieldTypeConfig_name]),
    ensureStep6_eq, List.find?_append,
    find?_mergeInto_of_disjoint _ _ _ hafterdisj, hstep5]
  rfl

theorem ensureCore_find_after (args : EnsureArgs) (c : Field)
    (hmem : c ∈ systemAfterFields args.disableGuests args.additionalNotesRequired) :
    ∃ x, (ensureCore args).find? (fun f => f.name == c.name) =
        some (attachFieldTypeConfig (mergeField c x)) ∧
      (args.bookingFields.find? (fun f => f.name == c.name) = some x ∨
       x ∈ migrateFrom 0 args.customInputs ∨ x = c) := by
  have hnodupA : ((systemAfterFields args.disableGuests
      args.additionalNotesRequired).map (fun f => f.name)).Nodup := by
    rw [systemAfterFields_map_name]; decide
  have hcname : c.name ∈ ["notes", "guests", "rescheduleReason"] := by
    have h := List.mem_map_of_mem (fun f => f.name) hmem
    rwa [systemAfterFields_map_name] at h
  have hbeforedisj : ∀ s ∈ systemBeforeFields, s.name ≠ c.name := by
    intro s hs
    have hsname : s.name ∈ ["name", "email", "location"] := by
      have h := List.mem_map_of_mem (fun f => f.name) hs
      rwa [systemBeforeFields_map_name] at h
    exact (before_after_names_disjoint s.name c.name hsname hcname).symm
  have hstep3 : (ensureStep3 args.bookingFields).find? (fun f => f.name == c.name) =
      args.bookingFields.find? (fun f => f.name == c.name) := by
    have hmissing : (missingOf systemBeforeFields args.bookingFields).find?
        (fun f => f.name == c.name) = none := by
      rw [List.find?_eq_none]
      intro f hf
      have hfs : f ∈ systemBeforeFields := List.mem_of_mem_filter hf
      simp [hbeforedisj f hfs]
    rw [ensureStep3_eq, List.find?_append, hmissing,
      find?_mergeInto_of_disjoint _ _ _ hbeforedisj]
    rfl
  have hmid : ∃ r, (ensureStep5 args.bookingFields.isEmpty args.customInputs
      (ensureStep3 args.bookingFields)).find? (fun f => f.name == c.name) = r ∧
      (r = args.bookingFields.find? (fun f => f.name == c.name) ∨
       (∃ x, r = some x ∧ x ∈ migrateFrom 0 args.customInputs)) := by
    unfold ensureStep5
    cases hemp : args.bookingFields.isEmpty
    · exact ⟨_, by simpa using hstep3, Or.inl rfl⟩
    · simp only [if_true]
      rw [List.find?_append, hstep3]
      cases hf : args.bookingFields.find? (fun f => f.name == c.name) with
      | some f₀ => exact ⟨some f₀, rfl, Or.inl rfl⟩
      | none =>
        cases hg : (migrateFrom 0 args.customInputs).find?
            (fun f => f.name == c.name) with
        | some g₀ =>
          exact ⟨some g₀, rfl, Or.inr ⟨g₀, rfl, List.mem_of_find?_eq_some hg⟩⟩
        | none => exact ⟨none, rfl, Or.inl rfl⟩
  obtain ⟨r, hr, hrcase⟩ := hmid
  cases hrsome : r with
  | some x =>
    refine ⟨x, ?_, ?_⟩
    · rw [ensureCore_eq,
        find?_map_attach _ (fun f => by rw [attachFieldTypeConfig_name]),
        ensureStep6_eq, List.find?_append,
        find?_mergeInto_self _ _ _ hmem hnodupA, hr, hrsome]
      rfl
    · rcases hrcase with heq | ⟨y, hy, hymem⟩
      · left; rw [← heq, hrsome]
      · right; left
        rw [hrsome] at hy
        exact (Option.some.inj hy) ▸ hymem
  | none =>
    refine ⟨c, ?_, Or.inr (Or.inr rfl)⟩
    have hanymid : (ensureStep5 args.bookingFields.isEmpty args.customInputs
        (ensureStep3 args.bookingFields)).any (fun f => f.name == c.name) = false :=
      any_eq_false_of_find?_eq_none (by rw [hr, hrsome])
    rw [ensureCore_eq,
      find?_map_attach _ (fun f => by rw [attachFieldTypeConfig_name]),
      ensureStep6_eq, List.find?_append,
      find?_mergeInto_self _ _ _ hmem hnodupA, hr, hrsome,
      find?_missingOf _ _ _ hmem hnodupA, hanymid]
    simp [mergeField_self]

theorem migrateFrom_hidden (k : Nat) (cis : List CustomInput) :
    ∀ f ∈ migrateFrom k cis, f.hidden = none := by
  induction cis generalizing k with
  | nil => intro f hf; cases hf
  | cons ci rest ih =>
    intro f hf
    rcases List.mem_cons.mp hf with heq | hmem
    · subst heq; rfl
    · exact ih (k + 1) f hmem

/-- C4: an existing `email` field with a user-set `required: false` keeps
`required: false` in the output — the shallow merge lets every property
present on the existing field win over the code-defined default
(`required: true` for `email` is not restored). -/
theorem claim_C4_email_required_preserved (args : EnsureArgs) (e : Field)
    (l : List Field)
    (hfind : args.bookingFields.find? (fun f => f.name == "email") = some e)
    (hreq : e.required = some false)
    (h : ensureBookingInputsHaveSystemFields args = some l) :
    ∃ f, l.find? (fun f => f.name == "email") = some f ∧
      f.required = some false := by
  obtain ⟨hl, -⟩ := ensure_some h
  subst hl
  have hmem : emailSystemField ∈ systemBeforeFields :=
    List.mem_cons_of_mem _ (List.mem_cons_self _ _)
  obtain ⟨x, hx, hcase⟩ := ensureCore_find_before args emailSystemField hmem
  have hename : emailSystemField.name = "email" := rfl
  rw [hename] at hx hcase
  have hxe : x = e := by
    rcases hcase with hsome | ⟨hnone, -⟩
    · rw [hfind] at hsome
      exact (Option.some.inj hsome).symm
    · rw [hfind] at hnone
      cases hnone
  subst hxe
  refine ⟨_, hx, ?_⟩
  rw [attachFieldTypeConfig_required]
  show (x.required <|> emailSystemField.required) = some false
  rw [hreq]
  rfl

/-- Witness for C4, at a field list whose `email` field has
`required: false`. -/
theorem claim_C4_witness :
    ∃ f, ((ensureBookingInputsHaveSystemFields emailOverrideArgs).getD
        []).find? (fun f => f.name == "email") = some f ∧
      f.required = some false :=
  claim_C4_email_required_preserved emailOverrideArgs
    { name := "email", type := FieldType.email,
      editable := some Editable.system, required := some false } _
    (by decide) (by decide) (by decide)

/-- C7 (amended): when no field named `guests` in the input carries a
`hidden` value of its own, the output's `guests` field has
`hidden = disableGuests` (in particular `hidden: true` when guests are
disabled and `hidden: false` otherwise).  An input `guests` field with its
own `hidden` value keeps it — see the counterexample. -/
theorem claim_C7_amended (args : EnsureArgs) (l : List Field)
    (hnohidden : ∀ f ∈ args.bookingFields, f.name = "guests" → f.hidden = none)
    (h : ensureBookingInputsHaveSystemFields args = some l) :
    ∃ f, l.find? (fun f => f.name == "guests") = some f ∧
      f.hidden = some args.disableGuests := by
  obtain ⟨hl, -⟩ := ensure_some h
  subst hl
  have hmem : guestsSystemField args.disableGuests ∈
      systemAfterFields args.disableGuests args.additionalNotesRequired :=
    List.mem_cons_of_mem _ (List.mem_cons_self _ _)
  obtain ⟨x, hx, hcase⟩ := ensureCore_find_after args
    (guestsSystemField args.disableGuests) hmem
  have hgname : (guestsSystemField args.disableGuests).name = "guests" := rfl
  rw [hgname] at hx
  refine ⟨_, hx, ?_⟩
  rw [attachFieldTypeConfig_hidden]
  have hxh : x.hidden = none ∨ x = guestsSystemField args.disableGuests := by
    rcases hcase with hf | hmig | hc
    · left
      have hp := List.find?_some hf
      have hxname : x.name = "guests" := by simpa [hgname] using hp
      exact hnohidden x (List.mem_of_find?_eq_some hf) hxname
    · left
      exact migrateFrom_hidden 0 args.customInputs x hmig
    · right
      exact hc
  show (x.hidden <|> (guestsSystemField args.disableGuests).hidden) =
    some args.disableGuests
  rcases hxh with hh | hh
  · rw [hh]
    rfl
  · rw [hh]
    rfl

/-- Witness for C7 (amended): with no `guests` field in the input and
`disableGuests: false`, the output's `guests` field has `hidden: false`. -/
theorem claim_C7_amended_witness :
    ∃ f, ((ensureBookingInputsHaveSystemFields smsEmptyScenarioArgs).getD
        []).find? (fun f => f.name == "guests") = some f ∧
      f.hidden = some false :=
  claim_C7_amended smsEmptyScenarioArgs _ (by decide) (by decide)

/-- C7 as stated is false: an input `guests` field carrying a user-set
`hidden: false` keeps it even under `disableGuests: true`, because the
merge lets the existing field's properties win. -/
theorem claim_C7_counterexample :
    guestsOverrideArgs.disableGuests = true ∧
    (ensureBookingInputsHaveSystemFields guestsOverrideArgs).isSome = true ∧
    ((((ensureBookingInputsHaveSystemFields guestsOverrideArgs).getD
        []).find? (fun f => f.name == "guests")).map (fun f => f.hidden)) =
      some (some false) := by
  refine ⟨rfl, by decide, by decide⟩

/-- C3: re-running the reconciler on its own output (with the same flags,
custom inputs and workflows) returns that output unchanged: in particular
no system field is duplicated and every property of every field —
system fields included — is preserved.  The output is always non-empty,
so the migration path is disabled on the second run. -/
theorem claim_C3_idempotent (args : EnsureArgs) (out : List Field)
    (h : ensureBookingInputsHaveSystemFields args = some out) :
    ensureBookingInputsHaveSystemFields
      { args with bookingFields := out } = some out := by
  obtain ⟨hl, hnodup⟩ := ensure_some h
  subst hl
  have habsB : ∀ c ∈ systemBeforeFields, ∃ f,
      (ensureCore args).find? (fun x => x.name == c.name) = some f ∧
      mergeField c f = f := by
    intro c hc
    obtain ⟨x, hx, -⟩ := ensureCore_find_before args c hc
    exact ⟨_, hx, mergeField_absorb c x⟩
  have habsA : ∀ c ∈ systemAfterFields args.disableGuests
      args.additionalNotesRequired, ∃ f,
      (ensureCore args).find? (fun x => x.name == c.name) = some f ∧
      mergeField c f = f := by
    intro c hc
    obtain ⟨x, hx, -⟩ := ensureCore_find_after args c hc
    exact ⟨_, hx, mergeField_absorb c x⟩
  have hanyOf : ∀ (c : Field), (∃ f,
      (ensureCore args).find? (fun x => x.name == c.name) = some f ∧
      mergeField c f = f) →
      (ensureCore args).any (fun x => x.name == c.name) = true := by
    rintro c ⟨f, hf, -⟩
    have hp := List.find?_some hf
    exact List.any_eq_true.mpr ⟨f, List.mem_of_find?_eq_some hf, hp⟩
  have hupd : ∀ (c : Field), (∃ f,
      (ensureCore args).find? (fun x => x.name == c.name) = some f ∧
      mergeField c f = f) →
      updateFirst (fun x => x.name == c.name) (mergeField c)
        (ensureCore args) = ensureCore args := by
    rintro c ⟨f, hf, habs⟩
    apply updateFirst_eq_self
    intro g hg
    rw [hf] at hg
    rw [← Option.some.inj hg]
    exact habs
  have hmemN : nameSystemField ∈ systemBeforeFields := List.mem_cons_self _ _
  have hmemE : emailSystemField ∈ systemBeforeFields :=
    List.mem_cons_of_mem _ (List.mem_cons_self _ _)
  have hmemL : locationSystemField ∈ systemBeforeFields :=
    List.mem_cons_of_mem _ (List.mem_cons_of_mem _ (List.mem_cons_self _ _))
  have hmemNo : notesSystemField args.additionalNotesRequired ∈
      systemAfterFields args.disableGuests args.additionalNotesRequired :=
    List.mem_cons_self _ _
  have hmemG : guestsSystemField args.disableGuests ∈
      systemAfterFields args.disableGuests args.additionalNotesRequired :=
    List.mem_cons_of_mem _ (List.mem_cons_self _ _)
  have hmemR : rescheduleReasonSystemField ∈
      systemAfterFields args.disableGuests args.additionalNotesRequired :=
    List.mem_cons_of_mem _ (List.mem_cons_of_mem _ (List.mem_cons_self _ _))
  have hmissB : missingOf systemBeforeFields (ensureCore args) = [] := by
    have h1 := hanyOf _ (habsB _ hmemN)
    have h2 := hanyOf _ (habsB _ hmemE)
    have h3 := hanyOf _ (habsB _ hmemL)
    show missingOf [nameSystemField, emailSystemField, locationSystemField] _ = []
    simp [missingOf, List.filter_cons, h1, h2, h3]
  have hmissA : missingOf (systemAfterFields args.disableGuests
      args.additionalNotesRequired) (ensureCore args) = [] := by
    have h1 := hanyOf _ (habsA _ hmemNo)
    have h2 := hanyOf _ (habsA _ hmemG)
    have h3 := hanyOf _ (habsA _ hmemR)
    show missingOf [notesSystemField args.additionalNotesRequired,
      guestsSystemField args.disableGuests, rescheduleReasonSystemField] _ = []
    simp [missingOf, List.filter_cons, h1, h2, h3]
  have hmergeB : mergeInto systemBeforeFields (ensureCore args) =
      ensureCore args := by
    have h1 := hupd _ (habsB _ hmemN)
    have h2 := hupd _ (habsB _ hmemE)
    have h3 := hupd _ (habsB _ hmemL)
    show mergeInto [nameSystemField, emailSystemField, locationSystemField] _ = _
    simp only [mergeInto, List.foldl_cons, List.foldl_nil]
    rw [h1, h2, h3]
  have hmergeA : mergeInto (systemAfterFields args.disableGuests
      args.additionalNotesRequired) (ensureCore args) = ensureCore args := by
    have h1 := hupd _ (habsA _ hmemNo)
    have h2 := hupd _ (habsA _ hmemG)
    have h3 := hupd _ (habsA _ hmemR)
    show mergeInto [notesSystemField args.additionalNotesRequired,
      guestsSystemField args.disableGuests, rescheduleReasonSystemField] _ = _
    simp only [mergeInto, List.foldl_cons, List.foldl_nil]
    rw [h1, h2, h3]
  have hstep3 : ensureStep3 (ensureCore args) = ensureCore args := by
    rw [ensureStep3_eq, hmissB, hmergeB, List.nil_append]
  have hne : (ensureCore args).isEmpty = false := by
    obtain ⟨f, hf, -⟩ := habsB _ hmemN
    have hfmem := List.mem_of_find?_eq_some hf
    cases hout : ensureCore args with
    | nil => rw [hout] at hfmem; cases hfmem
    | cons a rest => rfl
  have hstep5 : ensureStep5 (ensureCore args).isEmpty args.customInputs
      (ensureCore args) = ensureCore args := by
    unfold ensureStep5
    simp [hne]
  have hstep6 : ensureStep6 args.disableGuests args.additionalNotesRequired
      (ensureCore args) = ensureCore args := by
    rw [ensureStep6_eq, hmissA, hmergeA, List.append_nil]
  have hattach : (ensureCore args).map attachFieldTypeConfig =
      ensureCore args := by
    conv_lhs => rw [ensureCore_eq args]
    conv_rhs => rw [ensureCore_eq args]
    rw [List.map_map]
    rw [show attachFieldTypeConfig ∘ attachFieldTypeConfig =
      attachFieldTypeConfig from funext attachFieldTypeConfig_attachFieldTypeConfig]
  have hcore2 : ensureCore { args with bookingFields := ensureCore args } =
      ensureCore args := by
    rw [ensureCore_eq]
    show (ensureStep6 args.disableGuests args.additionalNotesRequired
      (ensureStep5 (ensureCore args).isEmpty args.customInputs
        (ensureStep3 (ensureCore args)))).map attachFieldTypeConfig = _
    rw [hstep3, hstep5, hstep6, hattach]
  unfold ensureBookingInputsHaveSystemFields
  rw [hcore2]
  unfold eventTypeBookingFieldsListParse
  rw [if_pos hnodup]

/-- Witness for C3, at the migration scenario's output. -/
theorem claim_C3_witness :
    ensureBookingInputsHaveSystemFields
      { migrationScenarioArgs with bookingFields :=
          (ensureBookingInputsHaveSystemFields migrationScenarioArgs).getD [] } =
      some ((ensureBookingInputsHaveSystemFields migrationScenarioArgs).getD []) :=
  claim_C3_idempotent migrationScenarioArgs _ (by decide)

theorem attachFieldTypeConfig_editable (f : Field) :
    (attachFieldTypeConfig f).editable = f.editable := by
  unfold attachFieldTypeConfig
  split <;> rfl

theorem attachFieldTypeConfig_options (f : Field) :
    (attachFieldTypeConfig f).options = f.options := by
  unfold attachFieldTypeConfig
  split <;> rfl

theorem length_updateFirst (p : Field → Bool) (g : Field → Field)
    (l : List Field) : (updateFirst p g l).length = l.length := by
  induction l with
  | nil => rfl
  | cons f fs ih =>
    cases hpf : p f <;> simp [updateFirst, hpf, ih]

theorem mergeInto_length (sys bf : List Field) :
    (mergeInto sys bf).length = bf.length := by
  induction sys generalizing bf with
  | nil => rfl
  | cons s rest ih =>
    show (mergeInto rest _).length = _
    rw [ih, length_updateFirst]

theorem migrateFrom_length (k : Nat) (cis : List CustomInput) :
    (migrateFrom k cis).length = cis.length := by
  induction cis generalizing k with
  | nil => rfl
  | cons ci rest ih => simp [migrateFrom, ih]

theorem updateFirst_get? (p : Field → Bool) (g : Field → Field)
    (l : List Field) (j : Nat) :
    (updateFirst p g l).get? j = l.get? j ∨
      ∃ x, l.get? j = some x ∧ (updateFirst p g l).get? j = some (g x) := by
  induction l generalizing j with
  | nil => left; rfl
  | cons f fs ih =>
    cases hpf : p f
    · cases j with
      | zero => left; simp [updateFirst, hpf]
      | succ j' =>
        rcases ih j' with hsame | ⟨x, hx, hgx⟩
        · left; simpa [updateFirst, hpf] using hsame
        · right; exact ⟨x, by simpa using hx, by simpa [updateFirst, hpf] using hgx⟩
    · cases j with
      | zero => right; exact ⟨f, rfl, by simp [updateFirst, hpf]⟩
      | succ j' => left; simp [updateFirst, hpf]

theorem get?_mergeInto_prop (sys : List Field) (P : Field → Prop)
    (hP : ∀ s x, P x → P (mergeField s x)) (bf : List Field) (j : Nat)
    (x : Field) (hx : bf.get? j = some x) :
    ∃ y, (mergeInto sys bf).get? j = some y ∧ (P x → P y) := by
  induction sys generalizing bf x with
  | nil => exact ⟨x, hx, fun h => h⟩
  | cons s rest ih =>
    show ∃ y, (mergeInto rest
      (updateFirst (fun f => f.name == s.name) (mergeField s) bf)).get? j =
      some y ∧ _
    rcases updateFirst_get? (fun f => f.name == s.name) (mergeField s) bf j with
      hsame | ⟨z, hz, hgz⟩
    · exact ih _ x (by rw [hsame, hx])
    · have hzx : z = x := by
        rw [hx] at hz
        exact (Option.some.inj hz).symm
      subst hzx
      obtain ⟨y, hy, hPy⟩ := ih _ (mergeField s z) hgz
      exact ⟨y, hy, fun h => hPy (hP s z h)⟩

theorem migrateFrom_get? (cis : List CustomInput) :
    ∀ (k i : Nat) (hi : i < cis.length),
      (migrateFrom k cis).get? i =
        some (migrateCustomInput (k + i) (cis.get ⟨i, hi⟩)) := by
  induction cis with
  | nil =>
    intro k i hi
    exact absurd hi (Nat.not_lt_zero i)
  | cons ci rest ih =>
    intro k i hi
    cases i with
    | zero => simp [migrateFrom]
    | succ i' =>
      show (migrateFrom (k + 1) rest).get? i' = _
      rw [ih (k + 1) i' (Nat.lt_of_succ_lt_succ hi)]
      rw [show k + 1 + i' = k + (i' + 1) from by omega]
      rfl

theorem ensureCore_migrated_get (cis : List CustomInput) (dg anr : Bool)
    (wfs : List WorkflowOnEventType) (i : Nat) (hi : i < cis.length) :
    ∃ f, (ensureCore
        { bookingFields := [], disableGuests := dg,
          additionalNotesRequired := anr, customInputs := cis,
          workflows := wfs }).get? (3 + i) = some f ∧
      f.name = (migrateCustomInput i (cis.get ⟨i, hi⟩)).name ∧
      f.type = (migrateCustomInput i (cis.get ⟨i, hi⟩)).type ∧
      f.editable = some Editable.user ∧
      f.options = (migrateCustomInput i (cis.get ⟨i, hi⟩)).options := by
  rw [ensureCore_eq]
  have h3 : ensureStep3 ([] : List Field) = systemBeforeFields := rfl
  have h5 : ensureStep5 ([] : List Field).isEmpty cis
      (ensureStep3 ([] : List Field)) =
      systemBeforeFields ++ migrateFrom 0 cis := by rw [h3]; rfl
  show ∃ f, ((ensureStep6 dg anr (ensureStep5 ([] : List Field).isEmpty cis
    (ensureStep3 ([] : List Field)))).map attachFieldTypeConfig).get? (3 + i) =
    some f ∧ _
  rw [h5]
  have hgetmid : (systemBeforeFields ++ migrateFrom 0 cis).get? (3 + i) =
      some (migrateCustomInput i (cis.get ⟨i, hi⟩)) := by
    rw [List.get?_append_right (by simp [systemBeforeFields] : systemBeforeFields.length ≤ 3 + i)]
    have hidx : 3 + i - systemBeforeFields.length = i := by
      simp [systemBeforeFields]
    rw [hidx, migrateFrom_get? cis 0 i hi]
    rw [show 0 + i = i from by omega]
  set P : Field → Prop := fun f =>
    f.name = (migrateCustomInput i (cis.get ⟨i, hi⟩)).name ∧
    f.type = (migrateCustomInput i (cis.get ⟨i, hi⟩)).type ∧
    f.editable = some Editable.user ∧
    f.options = (migrateCustomInput i (cis.get ⟨i, hi⟩)).options with hPdef
  have hP : ∀ s x, P x → P (mergeField s x) := by
    intro s x ⟨h1, h2, h3', h4⟩
    refine ⟨h1, h2, ?_, ?_⟩
    · show (x.editable <|> s.editable) = some Editable.user
      rw [h3']
      rfl
    · show (x.options <|> s.options) = _
      rw [h4]
      rfl
  obtain ⟨y, hy, hPy⟩ := get?_mergeInto_prop
    (systemAfterFields dg anr) P hP _ (3 + i) _ hgetmid
  have hPmig : P (migrateCustomInput i (cis.get ⟨i, hi⟩)) :=
    ⟨rfl, rfl, rfl, rfl⟩
  have hPy' := hPy hPmig
  have hlen : 3 + i < (mergeInto (systemAfterFields dg anr)
      (systemBeforeFields ++ migrateFrom 0 cis)).length := by
    rw [mergeInto_length, List.length_append, migrateFrom_length]
    simp only [systemBeforeFields, List.length_cons, List.length_nil]
    omega
  refine ⟨attachFieldTypeConfig y, ?_, ?_, ?_, ?_, ?_⟩
  · rw [List.get?_map, ensureStep6_eq, List.get?_append hlen, hy]
    rfl
  · rw [attachFieldTypeConfig_name]; exact hPy'.1
  · rw [attachFieldTypeConfig_type]; exact hPy'.2.1
  · rw [attachFieldTypeConfig_editable]; exact hPy'.2.2.1
  · rw [attachFieldTypeConfig_options]; exact hPy'.2.2.2

/-- C5: with an empty input field list the legacy custom inputs are
migrated.  At the spec's concrete scenario (`{label: "Company", TEXT}`,
`{label: "", NUMBER}`) the output has a user-editable field `company` of
type text and a user-editable field `number-2` of type number.  In
general the migrated field at position `3 + i` (the three "before" system
fields precede the migrated block) has name `slugify label` — or
`slugify "TYPE-k"` with `k = i + 1` when the label is empty — the type
given by the fixed `CustomInputTypeToFieldType` table, `editable: user`,
and its options copied with each `value` set to the `label` verbatim. -/
theorem claim_C5_migration :
    (∃ f, ((ensureBookingInputsHaveSystemFields migrationScenarioArgs).getD
        []).find? (fun f => f.name == "company") = some f ∧
      f.type = FieldType.text ∧ f.editable = some Editable.user) ∧
    (∃ f, ((ensureBookingInputsHaveSystemFields migrationScenarioArgs).getD
        []).find? (fun f => f.name == "number-2") = some f ∧
      f.type = FieldType.number ∧ f.editable = some Editable.user) ∧
    (∀ (cis : List CustomInput) (dg anr : Bool)
        (wfs : List WorkflowOnEventType) (i : Nat) (hi : i < cis.length),
      ∃ f, (ensureCore
          { bookingFields := [], disableGuests := dg,
            additionalNotesRequired := anr, customInputs := cis,
            workflows := wfs }).get? (3 + i) = some f ∧
        f.name = slugify (if (cis.get ⟨i, hi⟩).label == "" then
            (cis.get ⟨i, hi⟩).type.str ++ "-" ++ toString (i + 1)
          else (cis.get ⟨i, hi⟩).label) ∧
        f.type = CustomInputTypeToFieldType (cis.get ⟨i, hi⟩).type ∧
        f.editable = some Editable.user ∧
        f.options = some (match (cis.get ⟨i, hi⟩).options with
          | some os => os.map (fun o => { label := o.label, value := o.label })
          | none => [])) := by
  refine ⟨by decide, by decide, ?_⟩
  intro cis dg anr wfs i hi
  obtain ⟨f, hf, h1, h2, h3, h4⟩ := ensureCore_migrated_get cis dg anr wfs i hi
  exact ⟨f, hf, h1, h2, h3, h4⟩

/-- Witness for C5's general part, at index 1 of the migration scenario's
custom inputs (the empty-label NUMBER input). -/
theorem claim_C5_witness :
    ∃ f, (ensureCore
        { bookingFields := [], disableGuests := false,
          additionalNotesRequired := false,
          customInputs := migrationScenarioArgs.customInputs,
          workflows := [] }).get? (3 + 1) = some f ∧
      f.name = slugify (if (migrationScenarioArgs.customInputs.get
            ⟨1, by decide⟩).label == "" then
          (migrationScenarioArgs.customInputs.get ⟨1, by decide⟩).type.str ++
            "-" ++ toString (1 + 1)
        else (migrationScenarioArgs.customInputs.get ⟨1, by decide⟩).label) ∧
      f.type = CustomInputTypeToFieldType
        (migrationScenarioArgs.customInputs.get ⟨1, by decide⟩).type ∧
      f.editable = some Editable.user ∧
      f.options = some (match (migrationScenarioArgs.customInputs.get
          ⟨1, by decide⟩).options with
        | some os => os.map (fun o => { label := o.label, value := o.label })
        | none => []) :=
  claim_C5_migration.2.2 migrationScenarioArgs.customInputs false false [] 1
    (by decide)

/-- C9: validation failure of the metadata, the field list or the
custom-input list makes `getBookingFieldsWithSystemFields` fail with no
partial result; on success the returned list is the re-validated (branded,
duplicate-free) result of running the reconciler on exactly the parsed
inputs. -/
theorem claim_C9_validation (bfJ : Option Json) (dg : Bool)
    (ciJ mJ : Option Json) (wfs : Option (List WorkflowOnEventType)) :
    ((EventTypeMetaDataSchemaParse (jsOrDefault mJ (Json.obj [])) = none ∨
      eventTypeBookingFieldsJsonParse (jsOrDefault bfJ (Json.arr [])) = none ∨
      customInputArrayParse (jsOrDefault ciJ (Json.arr [])) = none) →
      getBookingFieldsWithSystemFields bfJ dg ciJ mJ wfs = none) ∧
    (∀ l, getBookingFieldsWithSystemFields bfJ dg ciJ mJ wfs = some l →
      (l.map (fun f => f.name)).Nodup ∧
      ∃ pm pbf pci,
        EventTypeMetaDataSchemaParse (jsOrDefault mJ (Json.obj [])) = some pm ∧
        eventTypeBookingFieldsJsonParse (jsOrDefault bfJ (Json.arr [])) = some pbf ∧
        customInputArrayParse (jsOrDefault ciJ (Json.arr [])) = some pci ∧
        ensureBookingInputsHaveSystemFields
          { bookingFields := pbf, disableGuests := dg,
            additionalNotesRequired := pm.additionalNotesRequired.getD false,
            customInputs := pci, workflows := wfs.getD [] } = some l) := by
  constructor
  · intro hfail
    unfold getBookingFieldsWithSystemFields
    rcases hfail with hm | hbf | hci
    · simp [hm]
    · cases hm : EventTypeMetaDataSchemaParse (jsOrDefault mJ (Json.obj [])) with
      | none => simp [hm]
      | some pm => simp [hm, hbf]
    · cases hm : EventTypeMetaDataSchemaParse (jsOrDefault mJ (Json.obj [])) with
      | none => simp [hm]
      | some pm =>
        cases hbf : eventTypeBookingFieldsJsonParse
            (jsOrDefault bfJ (Json.arr [])) with
        | none => simp [hm, hbf]
        | some pbf => simp [hm, hbf, hci]
  · intro l hsome
    unfold getBookingFieldsWithSystemFields at hsome
    cases hm : EventTypeMetaDataSchemaParse (jsOrDefault mJ (Json.obj [])) with
    | none => rw [hm] at hsome; cases hsome
    | some pm =>
      rw [hm] at hsome
      cases hbf : eventTypeBookingFieldsJsonParse
          (jsOrDefault bfJ (Json.arr [])) with
      | none => rw [hbf] at hsome; cases hsome
      | some pbf =>
        rw [hbf] at hsome
        cases hci : customInputArrayParse (jsOrDefault ciJ (Json.arr [])) with
        | none => rw [hci] at hsome; cases hsome
        | some pci =>
          rw [hci] at hsome
          have hsome' : ensureBookingInputsHaveSystemFields
              { bookingFields := pbf, disableGuests := dg,
                additionalNotesRequired := pm.additionalNotesRequired.getD false,
                customInputs := pci, workflows := wfs.getD [] } = some l := hsome
          obtain ⟨hl, hnodup⟩ := ensure_some hsome'
          refine ⟨?_, pm, pbf, pci, rfl, rfl, rfl, hsome'⟩
          rw [hl]
          exact hnodup

/-- Witness for C9: a non-array `bookingFields` JSON value fails
validation and the whole call returns nothing. -/
theorem claim_C9_witness :
    getBookingFieldsWithSystemFields (some (Json.num 5)) false none none none =
      none :=
  (claim_C9_validation (some (Json.num 5)) false none none none).1
    (Or.inr (Or.inl (by decide)))

/-- C10: null/undefined `bookingFields`, `customInputs`, `metadata` and
`workflows` are each defaulted (empty list, empty object), so a call with
all of them absent succeeds and equals a call with empty collections. -/
theorem claim_C10_null_defaults (dg : Bool) :
    getBookingFieldsWithSystemFields none dg none none none =
      getBookingFieldsWithSystemFields (some (Json.arr [])) dg
        (some (Json.arr [])) (some (Json.obj [])) (some []) ∧
    (getBookingFieldsWithSystemFields none dg none none none).isSome = true := by
  constructor
  · rfl
  · cases dg <;> decide

end CalCom
